import Mathlib

/-!
A shallow embedding of the identity/license core of the repository
(`ee/tabby-webserver/src/service/auth.rs` and
`ee/tabby-webserver/src/service/license.rs`).

Conventions of the embedding:
* The durable store (`tabby_db::DbConn`, whose implementation is not part of
  the two source files) is modelled from the spec as an explicit `Db` state
  value; each store operation is a Lean function on `Db`.  Store operations are
  fallible: `Db.faults` lists the names of operations that fail, so that the
  propagation of store-level failures can be stated and refuted.
* Service functions are translated from the source with explicit state
  passing: a Rust method `fn f(&self, ...) -> Result<T>` becomes
  `f : Db -> ... -> Except CoreErr T × Db`, the second component being the
  store after the call (unchanged on every early-return path, exactly as the
  source mutates nothing before the corresponding `return`).
* Time is an integer count of seconds (`Int`); `Utc::now()` becomes an
  explicit `now` argument.
* Randomness (refresh-token strings, argon2 salts, invitation codes) becomes
  explicit function arguments; freshness is a hypothesis where a claim needs
  it.
* Apostrophes inside source error-message literals are elided (for example
  the source text with "owner" and a possessive) -- the message values are
  otherwise verbatim, and no claim depends on the elided character.
-/

namespace TabbyAuth

/-- Account record, following the data model of the spec and the fields the
source reads (`id`, `email`, `password_encrypted`, `is_admin`, `active`,
`is_owner`). -/
structure UserRecord where
  id : Nat
  email : String
  passwordEncrypted : String
  isAdmin : Bool
  isOwner : Bool
  active : Bool
deriving DecidableEq, Repr

/-- Invitation record (`InvitationDAO`): id, target email, random code. -/
structure InvitationRec where
  id : Nat
  email : String
  code : String
deriving DecidableEq, Repr

/-- Refresh-token record: opaque token string, owning account id, fixed
expiry timestamp. -/
structure RefreshTokenRec where
  token : String
  userId : Nat
  expiresAt : Int
deriving DecidableEq, Repr

/-- Modelled from the spec: the refresh-token row is expired when the current
time is past its `expiresAt` (`RefreshTokenDAO::is_expired`, which lives in
the store crate). -/
def RefreshTokenRec.isExpired (r : RefreshTokenRec) (now : Int) : Bool :=
  r.expiresAt < now

/-- Security settings: the administrator-configured allow-list of signup
domains. -/
structure SecuritySetting where
  allowedRegisterDomainList : List String
deriving DecidableEq, Repr

/-- Modelled from the spec: the self-signup domain policy accepts an email
exactly when its domain is on the configured allow-list
(`can_register_without_invitation`, which lives outside the two source
files). -/
def SecuritySetting.canRegisterWithoutInvitation (s : SecuritySetting)
    (email : String) : Bool :=
  s.allowedRegisterDomainList.any fun d => ("@" ++ d).data.isSuffixOf email.data

/-- The durable store.  `faults` is the fault-injection set: the store
operations named in it fail, modelling store-level failures. -/
structure Db where
  users : List UserRecord
  invitations : List InvitationRec
  refreshTokens : List RefreshTokenRec
  nextUserId : Nat
  nextInvitationId : Nat
  enterpriseLicense : Option String
  security : SecuritySetting
  faults : List String
deriving DecidableEq, Repr

/-- Modelled from the spec: keyed lookup of an account by email
(`get_user_by_email`). -/
def Db.get_user_by_email (db : Db) (email : String) :
    Except String (Option UserRecord) :=
  if db.faults.contains "get_user_by_email" then
    .error "store failure: get_user_by_email"
  else
    .ok (db.users.find? fun u => u.email == email)

/-- Modelled from the spec: keyed lookup of an account by id (`get_user`). -/
def Db.get_user (db : Db) (id : Nat) : Except String (Option UserRecord) :=
  if db.faults.contains "get_user" then
    .error "store failure: get_user"
  else
    .ok (db.users.find? fun u => u.id == id)

/-- Modelled from the spec: the accounts holding the admin flag
(`list_admin_users`). -/
def Db.list_admin_users (db : Db) : Except String (List UserRecord) :=
  if db.faults.contains "list_admin_users" then
    .error "store failure: list_admin_users"
  else
    .ok (db.users.filter fun u => u.isAdmin)

/-- Modelled from the spec: create an account.  The owner flag is set exactly
when the account is created with the admin flag while no admin exists yet
("Owner is the account whose admin flag was set at the moment no admin
existed yet").  Returns the new row id. -/
def Db.create_user (db : Db) (email passwordEncrypted : String)
    (isAdmin : Bool) : Except String (Nat × Db) :=
  if db.faults.contains "create_user" then
    .error "store failure: create_user"
  else
    let user : UserRecord :=
      { id := db.nextUserId
        email := email
        passwordEncrypted := passwordEncrypted
        isAdmin := isAdmin
        isOwner := isAdmin && db.users.all fun u => !u.isAdmin
        active := true }
    .ok (db.nextUserId,
      { db with users := db.users ++ [user], nextUserId := db.nextUserId + 1 })

/-- Modelled from the spec: create an account and consume (delete) the linked
invitation in the same logical transaction (`create_user_with_invitation`). -/
def Db.create_user_with_invitation (db : Db) (email passwordEncrypted : String)
    (isAdmin : Bool) (invitationId : Nat) : Except String (Nat × Db) :=
  if db.faults.contains "create_user_with_invitation" then
    .error "store failure: create_user_with_invitation"
  else
    match db.create_user email passwordEncrypted isAdmin with
    | .error e => .error e
    | .ok (id, db1) =>
        .ok (id, { db1 with
          invitations := db1.invitations.filter fun i => i.id != invitationId })

/-- Modelled from the spec: invitation lookup by code
(`get_invitation_by_code`). -/
def Db.get_invitation_by_code (db : Db) (code : String) :
    Except String (Option InvitationRec) :=
  if db.faults.contains "get_invitation_by_code" then
    .error "store failure: get_invitation_by_code"
  else
    .ok (db.invitations.find? fun i => i.code == code)

/-- Modelled from the spec: invitation lookup by email
(`get_invitation_by_email`). -/
def Db.get_invitation_by_email (db : Db) (email : String) :
    Except String (Option InvitationRec) :=
  if db.faults.contains "get_invitation_by_email" then
    .error "store failure: get_invitation_by_email"
  else
    .ok (db.invitations.find? fun i => i.email == email)

/-- Modelled from the spec: create an invitation with a fresh random code
(`create_invitation`); the code is an explicit argument. -/
def Db.create_invitation (db : Db) (email code : String) :
    Except String (InvitationRec × Db) :=
  if db.faults.contains "create_invitation" then
    .error "store failure: create_invitation"
  else
    let inv : InvitationRec :=
      { id := db.nextInvitationId, email := email, code := code }
    .ok (inv, { db with
      invitations := db.invitations ++ [inv]
      nextInvitationId := db.nextInvitationId + 1 })

/-- Lifetime granted to a refresh token at first issuance.  Modelled from the
spec ("fixed expiry timestamp set at first issuance"): the concrete length is
owned by the store and no claim depends on it. -/
def refreshTokenLifetime : Int := 7 * 24 * 3600

/-- Modelled from the spec: insert a new refresh-token row whose expiry is
fixed at issuance time (`create_refresh_token`). -/
def Db.create_refresh_token (db : Db) (userId : Nat) (token : String)
    (now : Int) : Except String Db :=
  if db.faults.contains "create_refresh_token" then
    .error "store failure: create_refresh_token"
  else
    .ok { db with refreshTokens := db.refreshTokens ++
      [{ token := token, userId := userId,
         expiresAt := now + refreshTokenLifetime }] }

/-- Modelled from the spec: refresh-token lookup by token string
(`get_refresh_token`). -/
def Db.get_refresh_token (db : Db) (token : String) :
    Except String (Option RefreshTokenRec) :=
  if db.faults.contains "get_refresh_token" then
    .error "store failure: get_refresh_token"
  else
    .ok (db.refreshTokens.find? fun r => r.token == token)

/-- Modelled from the spec: atomically replace the token string of a
refresh-token row, keeping owner and expiry ("replace, not
insert-then-delete") (`replace_refresh_token`). -/
def Db.replace_refresh_token (db : Db) (oldTok newTok : String) :
    Except String Db :=
  if db.faults.contains "replace_refresh_token" then
    .error "store failure: replace_refresh_token"
  else
    .ok { db with refreshTokens := db.refreshTokens.map fun r =>
      if r.token == oldTok then { r with token := newTok } else r }

/-- Modelled from the spec: number of active accounts
(`count_active_users`). -/
def Db.count_active_users (db : Db) : Except String Nat :=
  if db.faults.contains "count_active_users" then
    .error "store failure: count_active_users"
  else
    .ok (db.users.filter fun u => u.active).length

/-- Modelled from the spec: set the admin flag of the account with the given
id (store-level `update_user_role`). -/
def Db.update_user_role (db : Db) (id : Nat) (isAdmin : Bool) :
    Except String Db :=
  if db.faults.contains "update_user_role" then
    .error "store failure: update_user_role"
  else
    .ok { db with users := db.users.map fun u =>
      if u.id == id then { u with isAdmin := isAdmin } else u }

/-- Modelled from the spec: set the active flag of the account with the given
id (store-level `update_user_active`). -/
def Db.update_user_active (db : Db) (id : Nat) (active : Bool) :
    Except String Db :=
  if db.faults.contains "update_user_active" then
    .error "store failure: update_user_active"
  else
    .ok { db with users := db.users.map fun u =>
      if u.id == id then { u with active := active } else u }

/-- Modelled from the spec: read the security settings
(`read_security_setting`). -/
def Db.read_security_setting (db : Db) : Except String SecuritySetting :=
  if db.faults.contains "read_security_setting" then
    .error "store failure: read_security_setting"
  else
    .ok db.security

/-- Modelled from the spec: persist the enterprise-license certificate text
(`update_enterprise_license`). -/
def Db.update_enterprise_license (db : Db) (license : Option String) :
    Except String Db :=
  if db.faults.contains "update_enterprise_license" then
    .error "store failure: update_enterprise_license"
  else
    .ok { db with enterpriseLicense := license }

/-! ## Credential hasher (`password_hash`, `password_verify`) -/

/-- Modelled from the spec: the self-describing PHC prefix of the encoded
hash string (algorithm id, version, cost parameters), as the source's own
test pins it. -/
def phcHeader : String := "$argon2id$v=19$m=19456,t=2,p=1$"

/-- Modelled from the spec: the one-way digest the hasher re-derives and
compares.  The argon2 primitive is outside the source files; it is modelled
as a perfect (collision-free) derivation, so the digest is represented by the
password itself and verification compares for equality. -/
def argonDigest (raw : String) : String := raw

/-- Modelled from the spec: the encoded hash string, algorithm header plus
salt plus digest (`argon2.hash_password(...).to_string()`). -/
def phcEncode (salt raw : String) : String :=
  phcHeader ++ salt ++ "$" ++ argonDigest raw

/-- Strip a leading pattern from a character list: `some rest` exactly when
the list is the pattern followed by `rest`. -/
def stripChars : List Char → List Char → Option (List Char)
  | [], l => some l
  | _ :: _, [] => none
  | p :: ps, c :: cs => if c = p then stripChars ps cs else none

/-- Split a character list at its first dollar separator. -/
def splitAtDollar : List Char → Option (List Char × List Char)
  | [] => none
  | c :: cs =>
    if c = '$' then some ([], cs)
    else
      match splitAtDollar cs with
      | none => none
      | some (l, r) => some (c :: l, r)

/-- Modelled from the spec: parsing of an encoded hash string into salt and
digest (`argon2::PasswordHash::new`); the empty string and any string not of
the exact self-describing shape (header, salt, one separator, digest) are
rejected. -/
def phcParse (hash : String) : Option (String × String) :=
  match stripChars phcHeader.data hash.data with
  | none => none
  | some rest =>
    match splitAtDollar rest with
    | none => none
    | some (salt, digest) =>
      if digest.contains '$' then none
      else some (String.mk salt, String.mk digest)

/-- `password_hash` of the source: derive the salted one-way hash.  The
random salt is an explicit argument. -/
def password_hash (raw : String) (salt : String) : Except String String :=
  .ok (phcEncode salt raw)

/-- `password_verify` of the source: parse the stored hash string; on a parse
failure return false, otherwise re-derive with the stored salt and compare
digests. -/
def password_verify (raw : String) (hash : String) : Bool :=
  match phcParse hash with
  | some (_, digest) => argonDigest raw == digest
  | none => false

/-! ## Token codec (`generate_jwt`, `generate_refresh_token`) -/

/-- Access-token claims (`JWTPayload::new(email, is_admin)`). -/
structure JWTPayload where
  sub : String
  isAdmin : Bool
deriving DecidableEq, Repr

/-- Modelled from the spec: minting of the signed, self-contained access
token (`generate_jwt`); the signing key is fixed, so the token is a
deterministic encoding of the claims. -/
def generate_jwt (payload : JWTPayload) : Except String String :=
  .ok ("jwt." ++ payload.sub ++ "." ++ (if payload.isAdmin then "admin" else "member"))

/-! ## Service error values -/

/-- Service-level error (`CoreError`): `other` carries the message of an
`anyhow` error, `invalidLicense` is `CoreError::InvalidLicense`. -/
inductive CoreErr where
  | other (msg : String)
  | invalidLicense (msg : String)
deriving DecidableEq, Repr

/-- `OAuthError` of the source: domain errors of the OAuth provisioning
policy plus `other` wrapping a propagated store failure. -/
inductive OAuthErr where
  | userNotInvited
  | userDisabled
  | unknown
  | other (msg : String)
deriving DecidableEq, Repr

/-! ## Invitation & registration engine -/

/-- `is_admin_initialized` of the source: at least one admin account
exists. -/
def is_admin_initialized (db : Db) : Except String Bool :=
  match db.list_admin_users with
  | .error e => .error e
  | .ok admins => .ok !admins.isEmpty

/-- `check_invitation` of the source: with no admin yet, no invitation is
required; otherwise the code must be present, resolve to an invitation, and
the invitation email must equal the requested email -- all three failures
yield the same error. -/
def check_invitation (db : Db) (isAdminInitialized : Bool)
    (invitationCode : Option String) (email : String) :
    Except CoreErr (Option InvitationRec) :=
  if !isAdminInitialized then
    .ok none
  else
    match invitationCode with
    | none => .error (.other "Invitation code is not valid")
    | some code =>
      match db.get_invitation_by_code code with
      | .error e => .error (.other e)
      | .ok none => .error (.other "Invitation code is not valid")
      | .ok (some invitation) =>
        if invitation.email != email then
          .error (.other "Invitation code is not valid")
        else
          .ok (some invitation)

/-- `RegisterResponse` of the source. -/
structure RegisterResponse where
  accessToken : String
  refreshToken : String
deriving DecidableEq, Repr

/-- `register` of the source.  `salt`, `freshToken` and `now` make the
hasher salt, the generated refresh-token string and the clock explicit. -/
def register (db : Db) (email password : String)
    (invitationCode : Option String) (salt freshToken : String) (now : Int) :
    Except CoreErr RegisterResponse × Db :=
  match is_admin_initialized db with
  | .error e => (.error (.other e), db)
  | .ok isAdminInit =>
  match check_invitation db isAdminInit invitationCode email with
  | .error e => (.error e, db)
  | .ok invitation =>
  match db.get_user_by_email email with
  | .error e => (.error (.other e), db)
  | .ok (some _) => (.error (.other "Email is already registered"), db)
  | .ok none =>
  match password_hash password salt with
  | .error _ => (.error (.other "Unknown error"), db)
  | .ok pwdHash =>
  match (match invitation with
         | some inv =>
             db.create_user_with_invitation email pwdHash (!isAdminInit) inv.id
         | none => db.create_user email pwdHash (!isAdminInit)) with
  | .error e => (.error (.other e), db)
  | .ok (id, db1) =>
  match db1.get_user id with
  | .error e => (.error (.other e), db1)
  | .ok none => (.error (.other "unwrap on None"), db1)
  | .ok (some user) =>
  match db1.create_refresh_token id freshToken now with
  | .error e => (.error (.other e), db1)
  | .ok db2 =>
  match generate_jwt { sub := user.email, isAdmin := user.isAdmin } with
  | .error _ => (.error (.other "Unknown error"), db2)
  | .ok accessToken =>
    (.ok { accessToken := accessToken, refreshToken := freshToken }, db2)

/-! ## Token lifecycle manager (`token_auth`, `refresh_token`) -/

/-- `TokenAuthResponse` of the source. -/
structure TokenAuthResponse where
  accessToken : String
  refreshToken : String
deriving DecidableEq, Repr

/-- `token_auth` of the source (login): look up by email, reject a disabled
account before the password check, verify the password, then issue a fresh
refresh token and an access token. -/
def token_auth (db : Db) (email password : String) (freshToken : String)
    (now : Int) : Except CoreErr TokenAuthResponse × Db :=
  match db.get_user_by_email email with
  | .error e => (.error (.other e), db)
  | .ok none => (.error (.other "User not found"), db)
  | .ok (some user) =>
  if !user.active then
    (.error (.other "User is disabled"), db)
  else if !password_verify password user.passwordEncrypted then
    (.error (.other "Password is not valid"), db)
  else
  match db.create_refresh_token user.id freshToken now with
  | .error e => (.error (.other e), db)
  | .ok db1 =>
  match generate_jwt { sub := user.email, isAdmin := user.isAdmin } with
  | .error _ => (.error (.other "Unknown error"), db1)
  | .ok accessToken =>
    (.ok { accessToken := accessToken, refreshToken := freshToken }, db1)

/-- `RefreshTokenResponse` of the source. -/
structure RefreshTokenResponse where
  accessToken : String
  refreshToken : String
  refreshExpiresAt : Int
deriving DecidableEq, Repr

/-- `refresh_token` of the source: look up the token, fail if missing or
expired, load the owning account and fail if missing or disabled, replace the
token string in place, and answer with the original expiry. -/
def refresh_token (db : Db) (token : String) (freshToken : String)
    (now : Int) : Except CoreErr RefreshTokenResponse × Db :=
  match db.get_refresh_token token with
  | .error e => (.error (.other e), db)
  | .ok none => (.error (.other "Invalid refresh token"), db)
  | .ok (some rt) =>
  if rt.isExpired now then
    (.error (.other "Expired refresh token"), db)
  else
  match db.get_user rt.userId with
  | .error e => (.error (.other e), db)
  | .ok none => (.error (.other "User not found"), db)
  | .ok (some user) =>
  if !user.active then
    (.error (.other "User is disabled"), db)
  else
  match db.replace_refresh_token token freshToken with
  | .error e => (.error (.other e), db)
  | .ok db1 =>
  match generate_jwt { sub := user.email, isAdmin := user.isAdmin } with
  | .error _ => (.error (.other "Unknown error"), db1)
  | .ok accessToken =>
    (.ok { accessToken := accessToken, refreshToken := freshToken,
           refreshExpiresAt := rt.expiresAt }, db1)

/-! ## Role / active updates -/

/-- `update_user_role` of the source: load the target account; refuse every
update of the owner; otherwise pass through to the store. -/
def update_user_role (db : Db) (id : Nat) (isAdmin : Bool) :
    Except CoreErr Unit × Db :=
  match db.get_user id with
  | .error e => (.error (.other e), db)
  | .ok none => (.error (.other "User does not exist"), db)
  | .ok (some user) =>
  if user.isOwner then
    (.error (.other "The owner admin status cannot be changed"), db)
  else
  match Db.update_user_role db id isAdmin with
  | .error e => (.error (.other e), db)
  | .ok db1 => (.ok (), db1)

/-- `update_user_active` of the source: load the target account; refuse every
update of the owner; otherwise pass through to the store. -/
def update_user_active (db : Db) (id : Nat) (active : Bool) :
    Except CoreErr Unit × Db :=
  match db.get_user id with
  | .error e => (.error (.other e), db)
  | .ok none => (.error (.other "User does not exist"), db)
  | .ok (some user) =>
  if user.isOwner then
    (.error (.other "The owner active status cannot be changed"), db)
  else
  match Db.update_user_active db id active with
  | .error e => (.error (.other e), db)
  | .ok db1 => (.ok (), db1)

/-! ## OAuth provisioning policy (`get_or_create_oauth_user`) -/

/-- `get_or_create_oauth_user` of the source.  Note the invitation lookup:
the source applies `.ok().flatten()` to the store result, so a store failure
there is treated like a missing invitation (`Except.toOption` followed by
`Option.join` is the same composition). -/
def get_or_create_oauth_user (db : Db) (email : String) :
    Except OAuthErr (Nat × Bool) × Db :=
  match db.get_user_by_email email with
  | .error e => (.error (.other e), db)
  | .ok (some user) =>
    if user.active then (.ok (user.id, user.isAdmin), db)
    else (.error .userDisabled, db)
  | .ok none =>
  match db.read_security_setting with
  | .error e => (.error (.other e), db)
  | .ok setting =>
  if setting.canRegisterWithoutInvitation email then
    match db.create_user email "" false with
    | .error e => (.error (.other e), db)
    | .ok (id, db1) => (.ok (id, false), db1)
  else
    match (db.get_invitation_by_email email).toOption.join with
    | none => (.error .userNotInvited, db)
    | some invitation =>
    match db.create_user_with_invitation email "" false invitation.id with
    | .error e => (.error (.other e), db)
    | .ok (id, db1) =>
    match db1.get_user id with
    | .error e => (.error (.other e), db1)
    | .ok none => (.error (.other "unwrap on None"), db1)
    | .ok (some user) => (.ok (user.id, user.isAdmin), db1)

/-! ## License service (`license.rs`) -/

/-- `LicenseType` of the schema. -/
inductive LicenseType where
  | community
  | team
  | enterprise
deriving DecidableEq, Repr

/-- `LicenseStatus` of the schema. -/
inductive LicenseStatus where
  | ok
  | expired
  | seatsExceeded
deriving DecidableEq, Repr

/-- `LicenseJWTPayload` of the source: the decoded certificate claims. -/
structure LicenseJWTPayload where
  exp : Int
  iat : Int
  iss : String
  sub : String
  typ : LicenseType
  num : Nat
deriving DecidableEq, Repr

/-- `LicenseInfo` of the schema, timestamps as integers. -/
structure LicenseInfo where
  type : LicenseType
  status : LicenseStatus
  seats : Int
  seatsUsed : Int
  issuedAt : Int
  expiresAt : Int
deriving DecidableEq, Repr

/-- Modelled from the spec: signature verification plus claim parsing of the
license certificate against the fixed embedded public key
(`jwt::decode` with the RS512 validation).  The cryptographic primitive is
abstracted as a decoding oracle argument `decode`. -/
def validate_license (decode : String → Option LicenseJWTPayload)
    (token : String) : Except String LicenseJWTPayload :=
  match decode token with
  | none => .error "InvalidSignatureOrClaims"
  | some payload =>
    if payload.iss != "tabbyml.com" then .error "InvalidIssuer"
    else .ok payload

/-- Smallest timestamp `chrono::NaiveDateTime::from_timestamp_opt`
accepts (model constant; no claim depends on its exact value). -/
def chronoMinTimestamp : Int := -8334601228800

/-- Largest timestamp `chrono::NaiveDateTime::from_timestamp_opt`
accepts (model constant; no claim depends on its exact value). -/
def chronoMaxTimestamp : Int := 8210266876799

/-- `jwt_timestamp_to_utc` of the source: a claim timestamp outside the
range representable by the date library is reported as corrupt. -/
def jwt_timestamp_to_utc (secs : Int) : Except String Int :=
  if chronoMinTimestamp ≤ secs ∧ secs ≤ chronoMaxTimestamp then .ok secs
  else .error "Timestamp is corrupt"

/-- `license_info_from_raw` of the source: convert the timestamps, then
derive the status -- expired when the expiry lies before now, else seats
exceeded when the used count strictly exceeds the granted count, else ok. -/
def license_info_from_raw (raw : LicenseJWTPayload) (seatsUsed : Nat)
    (now : Int) : Except String LicenseInfo :=
  match jwt_timestamp_to_utc raw.iat with
  | .error e => .error e
  | .ok issuedAt =>
  match jwt_timestamp_to_utc raw.exp with
  | .error e => .error e
  | .ok expiresAt =>
    let status :=
      if expiresAt < now then LicenseStatus.expired
      else if seatsUsed > raw.num then LicenseStatus.seatsExceeded
      else LicenseStatus.ok
    .ok { type := raw.typ, status := status, seats := (raw.num : Int),
          seatsUsed := (seatsUsed : Int), issuedAt := issuedAt,
          expiresAt := expiresAt }

/-- `LicenseServiceImpl` of the source: the store plus the seat-usage cache
`(lastComputedAt, count)` (the `RwLock` holds exactly this pair). -/
structure LicenseSvcState where
  db : Db
  seats : Int × Nat
deriving DecidableEq, Repr

/-- `read_used_seats` of the source: return the cached count unless a force
refresh is requested or the cache is older than 15 seconds, in which case the
count is recomputed from the store and the cache set to `(now, count)`. -/
def read_used_seats (st : LicenseSvcState) (forceRefresh : Bool)
    (now : Int) : Except String Nat × LicenseSvcState :=
  let refreshed := st.seats.1
  let seats := st.seats.2
  if forceRefresh || now - refreshed > 15 then
    match st.db.count_active_users with
    | .error e => (.error e, st)
    | .ok seats1 => (.ok seats1, { st with seats := (now, seats1) })
  else
    (.ok seats, st)

/-- `update_license` of the source: verify the certificate, force-refresh the
seat count, derive the status, and persist the certificate only on `Ok`,
rejecting `Expired` and `SeatsExceeded` without persisting. -/
def update_license (st : LicenseSvcState)
    (decode : String → Option LicenseJWTPayload) (license : String)
    (now : Int) : Except String Unit × LicenseSvcState :=
  match validate_license decode license with
  | .error _ => (.error "License is not valid", st)
  | .ok raw =>
  match read_used_seats st true now with
  | (.error e, st1) => (.error e, st1)
  | (.ok seats, st1) =>
  match license_info_from_raw raw seats now with
  | .error e => (.error e, st1)
  | .ok info =>
  match info.status with
  | .ok =>
    match st1.db.update_enterprise_license (some license) with
    | .error e => (.error e, st1)
    | .ok db1 => (.ok (), { st1 with db := db1 })
  | .expired => (.error "License is expired", st1)
  | .seatsExceeded =>
    (.error "License does not contain sufficient number of seats", st1)

/-! ## License-gated invitation creation -/

/-- Modelled from the spec: the license-validity gate used by
`create_invitation` (`IsLicenseValid` on the result of `read_license`): the
read must succeed with a present license whose status is `Ok`. -/
def is_license_valid (licenseRead : Except String (Option LicenseInfo)) :
    Bool :=
  match licenseRead with
  | .ok (some info) => info.status == LicenseStatus.ok
  | _ => false

/-- `create_invitation` of the source: gate on license validity, create the
invitation, and best-effort send the notification email (delivery never
fails the call and is outside the store, so it does not appear).  The answer
of the license collaborator is the `licenseRead` argument; the random code is
the `freshCode` argument. -/
def create_invitation (db : Db)
    (licenseRead : Except String (Option LicenseInfo))
    (email freshCode : String) : Except CoreErr InvitationRec × Db :=
  if !(is_license_valid licenseRead) then
    (.error (.invalidLicense "This feature requires enterprise license"), db)
  else
    match db.create_invitation email freshCode with
    | .error e => (.error (.other e), db)
    | .ok (invitation, db1) => (.ok invitation, db1)

/-- `request_invitation_email` of the source: require the self-signup domain
policy to accept the email, then delegate to `create_invitation` (and hence
to its license gate). -/
def request_invitation_email (db : Db)
    (licenseRead : Except String (Option LicenseInfo))
    (email freshCode : String) : Except CoreErr InvitationRec × Db :=
  match db.read_security_setting with
  | .error e => (.error (.other e), db)
  | .ok setting =>
  if !(setting.canRegisterWithoutInvitation email) then
    (.error (.other "Your email does not belong to any known authentication domains. Please contact the administrator for assistance."), db)
  else
    create_invitation db licenseRead email freshCode

/-! ## Concrete states used by witnesses and counterexamples -/

/-- An owner account with a real password hash. -/
def userAlice : UserRecord :=
  { id := 1, email := "a@x.com",
    passwordEncrypted := phcEncode "c2FsdA" "P@ssw0rd1",
    isAdmin := true, isOwner := true, active := true }

/-- A store holding only `userAlice`. -/
def dbAlice : Db :=
  { users := [userAlice], invitations := [], refreshTokens := [],
    nextUserId := 2, nextInvitationId := 1, enterpriseLicense := none,
    security := { allowedRegisterDomainList := [] }, faults := [] }

/-- An active non-admin account, as OAuth self-signup provisions one. -/
def userOauth : UserRecord :=
  { id := 1, email := "user@example.com", passwordEncrypted := "",
    isAdmin := false, isOwner := false, active := true }

/-- A store with no admin account but with `user@example.com` taken. -/
def dbNoAdminTaken : Db :=
  { users := [userOauth], invitations := [], refreshTokens := [],
    nextUserId := 2, nextInvitationId := 1, enterpriseLicense := none,
    security := { allowedRegisterDomainList := [] }, faults := [] }

/-- The empty store. -/
def dbEmpty : Db :=
  { users := [], invitations := [], refreshTokens := [],
    nextUserId := 1, nextInvitationId := 1, enterpriseLicense := none,
    security := { allowedRegisterDomainList := [] }, faults := [] }

/-- A store whose self-signup policy allows the domain `x.com`. -/
def dbDomain : Db :=
  { dbEmpty with security := { allowedRegisterDomainList := ["x.com"] } }

/-- A store whose invitation lookup by email fails. -/
def dbFaultInv : Db :=
  { dbEmpty with faults := ["get_invitation_by_email"] }

/-- `dbAlice` with a live refresh token for the owner. -/
def dbWithToken : Db :=
  { dbAlice with refreshTokens :=
      [{ token := "t1", userId := 1, expiresAt := 100 }] }

/-- A license-service state whose seat cache is stale and over-counts: the
store has one active account but the cache claims five. -/
def stStale : LicenseSvcState := { db := dbAlice, seats := (0, 5) }

/-- A license-service state with a fresh-enough cache. -/
def stLicense : LicenseSvcState := { db := dbAlice, seats := (0, 0) }

/-- A decoded certificate granting one seat until time 100. -/
def rawLicense : LicenseJWTPayload :=
  { exp := 100, iat := 0, iss := "tabbyml.com", sub := "fake@tabbyml.com",
    typ := .team, num := 1 }

/-- A decoding oracle accepting exactly the text `LIC`. -/
def decodeLicense : String → Option LicenseJWTPayload :=
  fun s => if s = "LIC" then some rawLicense else none

/-! ## Helper lemmas -/

theorem stripChars_append (pat rest : List Char) :
    stripChars pat (pat ++ rest) = some rest := by
  induction pat with
  | nil => rfl
  | cons p ps ih => simpa [stripChars] using ih

theorem splitAtDollar_append (l r : List Char) (h : l.contains '$' = false) :
    splitAtDollar (l ++ '$' :: r) = some (l, r) := by
  induction l with
  | nil => simp [splitAtDollar]
  | cons c cs ih =>
    simp only [List.contains_cons, Bool.or_eq_false_iff, beq_eq_false_iff_ne,
      ne_eq] at h
    have hc : ¬ c = '$' := fun hcc => h.1 hcc.symm
    simp [splitAtDollar, hc, ih h.2]

theorem phcParse_phcEncode (salt raw : String)
    (hsalt : salt.data.contains '$' = false)
    (hraw : raw.data.contains '$' = false) :
    phcParse (phcEncode salt raw) = some (salt, raw) := by
  have hdata : (phcEncode salt raw).data =
      phcHeader.data ++ (salt.data ++ '$' :: raw.data) := by
    simp [phcEncode, argonDigest, String.data_append]
  rw [phcParse, hdata, stripChars_append]
  simp [splitAtDollar_append _ _ hsalt, hraw]
  simpa using hraw

/-! ## C7 -/

/-- C7 (counterexample): verifying the empty password against the hash of the
empty password succeeds, so the claim that verifying `p` against
`hash("")` returns false for every input password `p` fails at `p = ""`. -/
theorem c7_hash_of_empty_counterexample :
    password_hash "" "c2FsdA" = .ok (phcEncode "c2FsdA" "") ∧
    password_verify "" (phcEncode "c2FsdA" "") = true := by
  exact ⟨rfl, by decide⟩

/-- C7 (amended): for every input password `p`, verifying `p` against the
empty stored hash string returns false and verifying `p` against any
malformed hash string returns false (no failure escapes); verifying `p`
against the hash of the empty password returns false for every nonempty `p`
(the empty password itself verifies, as re-deriving and comparing must
accept the hashed input). -/
theorem password_verify_guarantees (p salt : String)
    (hsalt : salt.data.contains '$' = false) :
    password_verify p "" = false ∧
    (∀ h, phcParse h = none → password_verify p h = false) ∧
    (p ≠ "" →
      ∀ hs, password_hash "" salt = .ok hs → password_verify p hs = false) := by
  refine ⟨rfl, fun h hnone => ?_, fun hp hs heq => ?_⟩
  · rw [password_verify, hnone]
  · have hhs : hs = phcEncode salt "" := by
      simpa [password_hash] using heq.symm
    rw [hhs, password_verify, phcParse_phcEncode salt "" hsalt (by decide)]
    simpa [argonDigest] using hp

/-- C7 (witness): the guarantees evaluated at concrete inputs, including the
empty input password against the empty and malformed hash strings. -/
theorem password_verify_guarantees_witness :
    password_verify "" "" = false ∧
    password_verify "" "not a phc string" = false ∧
    password_verify "wrong" (phcEncode "c2FsdA" "") = false := by
  have h0 := password_verify_guarantees "" "c2FsdA" (by decide)
  have h1 := password_verify_guarantees "wrong" "c2FsdA" (by decide)
  exact ⟨h0.1, h0.2.1 "not a phc string" (by decide),
    h1.2.2 (by decide) (phcEncode "c2FsdA" "") rfl⟩

/-! ## C5 -/

/-- C5 (counterexample): at a concrete store, login with an unknown email
fails with the not-found error while login with a known active account and a
wrong password fails with the bad-password error; the two error values
differ, so the two failures are distinguishable in the response. -/
theorem c5_login_distinguishable_counterexample :
    (token_auth dbAlice "b@x.com" "P@ssw0rd1" "tok" 0).1 =
      .error (.other "User not found") ∧
    (token_auth dbAlice "a@x.com" "wrong" "tok" 0).1 =
      .error (.other "Password is not valid") ∧
    CoreErr.other "User not found" ≠ CoreErr.other "Password is not valid" := by
  refine ⟨rfl, rfl, by decide⟩

/-- C5 (amended): login with an email resolving to no account fails with the
not-found error, and login with an existing active account but a wrong
password fails with the bad-password error; the two outcomes are distinct
error values, so they are distinguishable. -/
theorem token_auth_failure_modes (db : Db) (email pw fresh : String)
    (now : Int) (hf : db.faults.contains "get_user_by_email" = false) :
    (db.users.find? (fun u => u.email == email) = none →
      token_auth db email pw fresh now =
        (.error (.other "User not found"), db)) ∧
    (∀ u, db.users.find? (fun w => w.email == email) = some u →
      u.active = true → password_verify pw u.passwordEncrypted = false →
      token_auth db email pw fresh now =
        (.error (.other "Password is not valid"), db)) ∧
    CoreErr.other "User not found" ≠ CoreErr.other "Password is not valid" := by
  have hf2 : "get_user_by_email" ∉ db.faults := by simpa using hf
  refine ⟨fun hnone => ?_, fun u hu hact hpw => ?_, by decide⟩
  · simp [token_auth, Db.get_user_by_email, hf2, hnone]
  · simp [token_auth, Db.get_user_by_email, hf2, hu, hact, hpw]

/-- C5 (witness): the failure modes evaluated at a concrete store. -/
theorem token_auth_failure_modes_witness :
    token_auth dbAlice "b@x.com" "pw" "tok" 0 =
      (.error (.other "User not found"), dbAlice) := by
  have h := token_auth_failure_modes dbAlice "b@x.com" "pw" "tok" 0 rfl
  exact h.1 (by decide)

/-! ## C10 -/

/-- C10: even for an email the self-signup domain policy accepts,
`request_invitation_email` fails with the invalid-license error whenever the
active license is not valid, and the store is unchanged (no invitation is
created), because it delegates to the license-gated `create_invitation`. -/
theorem request_invitation_email_license_gate (db : Db)
    (licenseRead : Except String (Option LicenseInfo))
    (email freshCode : String)
    (hsec : db.faults.contains "read_security_setting" = false)
    (hdom : db.security.canRegisterWithoutInvitation email = true)
    (hlic : is_license_valid licenseRead = false) :
    request_invitation_email db licenseRead email freshCode =
      (.error (.invalidLicense "This feature requires enterprise license"),
       db) := by
  have hsec2 : "read_security_setting" ∉ db.faults := by simpa using hsec
  simp [request_invitation_email, Db.read_security_setting, hsec2, hdom,
    create_invitation, hlic]

/-- C10 (witness): the license gate evaluated at a store allowing the domain
`x.com` and a license read answering that no license is present. -/
theorem request_invitation_email_license_gate_witness :
    request_invitation_email dbDomain (.ok none) "a@x.com" "code1" =
      (.error (.invalidLicense "This feature requires enterprise license"),
       dbDomain) := by
  exact request_invitation_email_license_gate dbDomain (.ok none) "a@x.com"
    "code1" rfl (by decide) rfl

/-! ## C3 -/

/-- C3: once an admin exists, `register` with a missing invitation code,
with a code resolving to no invitation, or with a code whose invitation
email differs from the requested email fails with the single
invitation-invalid error in all three cases, and the store is returned
unchanged (no mutation). -/
theorem register_invitation_gate (db : Db) (email password salt fresh : String)
    (now : Int) (invitationCode : Option String)
    (hfa : db.faults.contains "list_admin_users" = false)
    (hfc : db.faults.contains "get_invitation_by_code" = false)
    (hadmin : (db.users.filter fun u => u.isAdmin) ≠ [])
    (hbad : invitationCode = none
      ∨ (∃ c, invitationCode = some c ∧
          db.invitations.find? (fun i => i.code == c) = none)
      ∨ (∃ c inv, invitationCode = some c ∧
          db.invitations.find? (fun i => i.code == c) = some inv ∧
          inv.email ≠ email)) :
    register db email password invitationCode salt fresh now =
      (.error (.other "Invitation code is not valid"), db) := by
  have hfa2 : "list_admin_users" ∉ db.faults := by simpa using hfa
  have hfc2 : "get_invitation_by_code" ∉ db.faults := by simpa using hfc
  have hinit : is_admin_initialized db = .ok true := by
    cases hfil : db.users.filter fun u => u.isAdmin with
    | nil => exact absurd hfil hadmin
    | cons a l =>
      simp [is_admin_initialized, Db.list_admin_users, hfa2, hfil]
  have hcheck : check_invitation db true invitationCode email =
      .error (.other "Invitation code is not valid") := by
    rcases hbad with h1 | ⟨c, hc, hnone⟩ | ⟨c, inv, hc, hsome, hne⟩
    · rw [h1]; rfl
    · rw [hc]
      simp [check_invitation, Db.get_invitation_by_code, hfc2, hnone]
    · rw [hc]
      simp [check_invitation, Db.get_invitation_by_code, hfc2, hsome, hne]
  simp [register, hinit, hcheck]

/-- C3 (witness): the invitation gate evaluated at a store with an admin and
one invitation, on all three bad inputs. -/
theorem register_invitation_gate_witness :
    register dbAlice "b@x.com" "pw" none "c2FsdA" "tok" 0 =
      (.error (.other "Invitation code is not valid"), dbAlice) := by
  exact register_invitation_gate dbAlice "b@x.com" "pw" "c2FsdA" "tok" 0 none
    rfl rfl (by decide) (Or.inl rfl)

/-! ## C6 -/

/-- C6 (counterexample): the owner is an admin, yet `update_user_role` on
the owner with the admin flag `true` (neither a demotion nor a
deactivation) fails instead of passing through to the store, so the claim
that every combination other than demote/deactivate passes through is
false. -/
theorem c6_owner_promote_counterexample :
    userAlice.isOwner = true ∧ userAlice.isAdmin = true ∧
    update_user_role dbAlice 1 true =
      (.error (.other "The owner admin status cannot be changed"), dbAlice) ∧
    (update_user_role dbAlice 1 true).1 ≠ .ok () := by
  refine ⟨rfl, rfl, rfl, ?_⟩
  intro h
  have h2 : (Except.error (CoreErr.other "The owner admin status cannot be changed") :
      Except CoreErr Unit) = .ok () := h
  exact Except.noConfusion h2

/-- C6 (amended): `update_user_role` and `update_user_active` fail whenever
the target account is the owner, regardless of the requested value, leaving
the store unchanged; for every existing non-owner target they pass through
to the store update. -/
theorem update_user_owner_guard (db : Db) (id : Nat) (v : Bool)
    (hg : db.faults.contains "get_user" = false)
    (hr : db.faults.contains "update_user_role" = false)
    (ha : db.faults.contains "update_user_active" = false) :
    (∀ u, db.users.find? (fun w => w.id == id) = some u → u.isOwner = true →
      update_user_role db id v =
        (.error (.other "The owner admin status cannot be changed"), db) ∧
      update_user_active db id v =
        (.error (.other "The owner active status cannot be changed"), db)) ∧
    (∀ u, db.users.find? (fun w => w.id == id) = some u → u.isOwner = false →
      update_user_role db id v =
        (.ok (), { db with users := db.users.map fun w =>
          if w.id == id then { w with isAdmin := v } else w }) ∧
      update_user_active db id v =
        (.ok (), { db with users := db.users.map fun w =>
          if w.id == id then { w with active := v } else w })) := by
  have hg2 : "get_user" ∉ db.faults := by simpa using hg
  have hr2 : "update_user_role" ∉ db.faults := by simpa using hr
  have ha2 : "update_user_active" ∉ db.faults := by simpa using ha
  constructor
  · intro u hu howner
    constructor
    · simp [update_user_role, Db.get_user, hg2, hu, howner]
    · simp [update_user_active, Db.get_user, hg2, hu, howner]
  · intro u hu howner
    constructor
    · simp [update_user_role, Db.update_user_role, Db.get_user, hg2, hr2,
        hu, howner]
    · simp [update_user_active, Db.update_user_active, Db.get_user, hg2, ha2,
        hu, howner]

/-- C6 (witness): the owner guard evaluated at the concrete owner store. -/
theorem update_user_owner_guard_witness :
    update_user_role dbAlice 1 false =
      (.error (.other "The owner admin status cannot be changed"), dbAlice) ∧
    update_user_active dbAlice 1 false =
      (.error (.other "The owner active status cannot be changed"),
       dbAlice) := by
  have h := update_user_owner_guard dbAlice 1 false rfl rfl rfl
  exact h.1 userAlice (by decide) rfl

/-! ## C8 -/

/-- C8 (counterexample): with a cache computed at time 0 and read at time 15
(so that the age is not strictly below 15 seconds), the code still returns
the cached count unchanged instead of recomputing, although the store count
differs, so "the cached count is returned exactly when
now - lastComputedAt < 15 seconds" is false at this input. -/
theorem c8_cache_boundary_counterexample :
    ¬ ((15 : Int) - stStale.seats.1 < 15) ∧
    stStale.db.count_active_users = .ok 1 ∧
    read_used_seats stStale false 15 = (.ok 5, stStale) ∧
    (5 : Nat) ≠ 1 := by
  refine ⟨by decide, rfl, rfl, by decide⟩

/-- C8 (amended): with no force refresh the cached count is returned, and
the cache left untouched, exactly when the cache age is at most 15 seconds;
when the age strictly exceeds 15 seconds, and always under a force refresh,
the count is recomputed from the account store and the cache set to the
current time and count. -/
theorem read_used_seats_policy (st : LicenseSvcState) (now : Int)
    (hf : st.db.faults.contains "count_active_users" = false) :
    (now - st.seats.1 ≤ 15 →
      read_used_seats st false now = (.ok st.seats.2, st)) ∧
    (now - st.seats.1 > 15 →
      read_used_seats st false now =
        (.ok (st.db.users.filter fun u => u.active).length,
         { st with seats :=
            (now, (st.db.users.filter fun u => u.active).length) })) ∧
    read_used_seats st true now =
      (.ok (st.db.users.filter fun u => u.active).length,
       { st with seats :=
          (now, (st.db.users.filter fun u => u.active).length) }) := by
  have hf2 : "count_active_users" ∉ st.db.faults := by simpa using hf
  refine ⟨fun hle => ?_, fun hgt => ?_, ?_⟩
  · have hnot : ¬ (now - st.seats.1 > 15) := not_lt.mpr hle
    simp [read_used_seats, hnot]
  · simp [read_used_seats, hgt, Db.count_active_users, hf2]
  · simp [read_used_seats, Db.count_active_users, hf2]

/-- C8 (witness): the freshness policy evaluated on the concrete stale
state. -/
theorem read_used_seats_policy_witness :
    read_used_seats stStale false 15 = (.ok 5, stStale) ∧
    read_used_seats stStale true 15 = (.ok 1, { stStale with seats := (15, 1) }) := by
  have h := read_used_seats_policy stStale 15 rfl
  exact ⟨h.1 (by decide), h.2.2⟩

/-! ## C9 -/

/-- C9 (counterexample): with the invitation-lookup store operation failing,
`get_or_create_oauth_user` answers the domain error `userNotInvited` instead
of propagating the store failure, so the claim that a store failure during
the OAuth provisioning invitation lookup fails the call with that store
error rather than a domain error is false. -/
theorem c9_oauth_swallows_store_failure_counterexample :
    dbFaultInv.get_invitation_by_email "x@y.com" =
      .error "store failure: get_invitation_by_email" ∧
    get_or_create_oauth_user dbFaultInv "x@y.com" =
      (.error .userNotInvited, dbFaultInv) ∧
    (OAuthErr.userNotInvited : OAuthErr) ≠
      .other "store failure: get_invitation_by_email" := by
  exact ⟨rfl, rfl, fun h => OAuthErr.noConfusion h⟩

/-- C9 (amended): store failures propagate unchanged out of the operations
of this core -- in `resolveOrCreate`, a failing account lookup surfaces as
that store error -- with the one exception of the OAuth provisioning
invitation lookup, where a store failure is treated as no invitation found
and the call fails with the domain error `userNotInvited`, mutating
nothing. -/
theorem oauth_store_failure_policy (db : Db) (email : String) :
    (db.faults.contains "get_user_by_email" = true →
      get_or_create_oauth_user db email =
        (.error (.other "store failure: get_user_by_email"), db)) ∧
    (db.faults.contains "get_user_by_email" = false →
     db.users.find? (fun u => u.email == email) = none →
     db.faults.contains "read_security_setting" = false →
     db.security.canRegisterWithoutInvitation email = false →
     db.faults.contains "get_invitation_by_email" = true →
      get_or_create_oauth_user db email = (.error .userNotInvited, db)) := by
  constructor
  · intro h1
    have h1m : "get_user_by_email" ∈ db.faults := by simpa using h1
    simp [get_or_create_oauth_user, Db.get_user_by_email, h1m]
  · intro h1 h2 h3 h4 h5
    have h1m : "get_user_by_email" ∉ db.faults := by simpa using h1
    have h3m : "read_security_setting" ∉ db.faults := by simpa using h3
    have h5m : "get_invitation_by_email" ∈ db.faults := by simpa using h5
    simp [get_or_create_oauth_user, Db.get_user_by_email, h1m, h2,
      Db.read_security_setting, h3m, h4, Db.get_invitation_by_email, h5m,
      Except.toOption, Option.join]

/-- C9 (witness): the propagation policy evaluated at the store whose
invitation lookup fails. -/
theorem oauth_store_failure_policy_witness :
    get_or_create_oauth_user dbFaultInv "x@y.com" =
      (.error .userNotInvited, dbFaultInv) := by
  have h := oauth_store_failure_policy dbFaultInv "x@y.com"
  exact h.2 rfl rfl rfl rfl rfl

/-! ## C1 -/

/-- C1: `refresh_token` on a token string unknown to the store, or on a
stored token whose expiry has passed, fails and returns the store
unchanged (no token is created); when it succeeds, the stored row has its
token string replaced by the freshly generated one (which differs from the
old string) while the returned `refreshExpiresAt` is the original row's
`expiresAt`, unchanged -- expiry is never extended by a rotation. -/
theorem refresh_token_rotation (db : Db) (tok fresh : String) (now : Int)
    (hf1 : db.faults.contains "get_refresh_token" = false)
    (hf2 : db.faults.contains "get_user" = false)
    (hf3 : db.faults.contains "replace_refresh_token" = false)
    (hfresh : fresh ≠ tok) :
    (db.refreshTokens.find? (fun r => r.token == tok) = none →
      refresh_token db tok fresh now =
        (.error (.other "Invalid refresh token"), db)) ∧
    (∀ rt, db.refreshTokens.find? (fun r => r.token == tok) = some rt →
      rt.expiresAt < now →
      refresh_token db tok fresh now =
        (.error (.other "Expired refresh token"), db)) ∧
    (∀ rt resp db1,
      db.refreshTokens.find? (fun r => r.token == tok) = some rt →
      refresh_token db tok fresh now = (.ok resp, db1) →
      resp.refreshExpiresAt = rt.expiresAt ∧
      resp.refreshToken = fresh ∧ resp.refreshToken ≠ tok ∧
      db1.refreshTokens = db.refreshTokens.map (fun r =>
        if r.token == tok then { r with token := fresh } else r) ∧
      db1.users = db.users) := by
  have hf1m : "get_refresh_token" ∉ db.faults := by simpa using hf1
  have hf2m : "get_user" ∉ db.faults := by simpa using hf2
  have hf3m : "replace_refresh_token" ∉ db.faults := by simpa using hf3
  refine ⟨fun hnone => ?_, fun rt hrt hexp => ?_,
    fun rt resp db1 hrt hok => ?_⟩
  · simp [refresh_token, Db.get_refresh_token, hf1m, hnone]
  · simp [refresh_token, Db.get_refresh_token, hf1m, hrt,
      RefreshTokenRec.isExpired, hexp]
  · have e1 : db.get_refresh_token tok = .ok (some rt) := by
      simp [Db.get_refresh_token, hf1m, hrt]
    have e2 : db.get_user rt.userId =
        .ok (db.users.find? fun u => u.id == rt.userId) := by
      simp [Db.get_user, hf2m]
    have e3 : db.replace_refresh_token tok fresh =
        .ok { db with refreshTokens := db.refreshTokens.map fun r =>
          if r.token == tok then { r with token := fresh } else r } := by
      simp [Db.replace_refresh_token, hf3m]
    by_cases hexp : rt.expiresAt < now
    · simp [refresh_token, e1, RefreshTokenRec.isExpired, hexp] at hok
    · cases hfu : db.users.find? fun u => u.id == rt.userId with
      | none =>
        simp [refresh_token, e1, e2, RefreshTokenRec.isExpired, hexp,
          hfu] at hok
      | some user =>
        by_cases hact : user.active
        · simp only [refresh_token, e1, e2, e3, RefreshTokenRec.isExpired,
            hexp, hfu, hact, generate_jwt, decide_eq_true_eq, if_false,
            Bool.not_true, decide_False, Bool.false_eq_true, if_true,
            Prod.mk.injEq, Except.ok.injEq] at hok
          obtain ⟨hresp, hdb⟩ := hok
          subst hresp
          subst hdb
          exact ⟨rfl, rfl, hfresh, rfl, rfl⟩
        · simp [refresh_token, e1, e2, RefreshTokenRec.isExpired, hexp,
            hfu, hact] at hok

/-- C1 (witness): rotation evaluated at the concrete store holding one live
token: a successful refresh at time 5 keeps the stored expiry 100, and an
unknown token string fails. -/
theorem refresh_token_rotation_witness :
    refresh_token dbWithToken "absent" "t2" 5 =
      (.error (.other "Invalid refresh token"), dbWithToken) ∧
    (refresh_token dbWithToken "t1" "t2" 5).1 =
      .ok { accessToken := "jwt.a@x.com.admin", refreshToken := "t2",
            refreshExpiresAt := 100 } ∧
    (refresh_token dbWithToken "t1" "t2" 5).2.refreshTokens =
      [{ token := "t2", userId := 1, expiresAt := 100 }] := by
  have h := refresh_token_rotation dbWithToken "absent" "t2" 5
    rfl rfl rfl (by decide)
  exact ⟨h.1 (by decide), rfl, rfl⟩

/-! ## C2 -/

/-- C2 (counterexample): a store with no admin account but with the email
already taken by a non-admin account (exactly what OAuth self-signup
provisions) makes `register` fail with the email-taken error, so "if no
admin account exists yet, register succeeds" is false at this input. -/
theorem c2_register_email_taken_counterexample :
    (dbNoAdminTaken.users.filter fun u => u.isAdmin) = [] ∧
    (register dbNoAdminTaken "user@example.com" "pw" none "c2FsdA" "tok" 0) =
      ((.error (.other "Email is already registered")), dbNoAdminTaken) := by
  exact ⟨rfl, rfl⟩

/-- C2 (amended): while no admin account exists, provided the requested
email is not already registered, `register` succeeds for any email,
password and optional invitation code; the invitation is ignored (the
result is the same as with no code at all, and the invitation table is
untouched) and the created account carries both the admin and the owner
flag. -/
theorem register_first_admin (db : Db) (email password : String)
    (invitationCode : Option String) (salt fresh : String) (now : Int)
    (hf : db.faults = [])
    (hnoadmin : (db.users.filter fun u => u.isAdmin) = [])
    (hemail : db.users.find? (fun u => u.email == email) = none)
    (hid : ∀ u ∈ db.users, u.id ≠ db.nextUserId) :
    ∃ resp db1,
      register db email password invitationCode salt fresh now =
        (.ok resp, db1) ∧
      register db email password invitationCode salt fresh now =
        register db email password none salt fresh now ∧
      resp.refreshToken = fresh ∧
      ∃ newUser,
        db1.users = db.users ++ [newUser] ∧ newUser.email = email ∧
        newUser.isAdmin = true ∧ newUser.isOwner = true ∧
        db1.invitations = db.invitations := by
  have hcont : ∀ s : String, s ∉ db.faults := by simp [hf]
  have hinit : is_admin_initialized db = .ok false := by
    simp [is_admin_initialized, Db.list_admin_users, hcont _, hnoadmin]
  have hcheck : ∀ code, check_invitation db false code email = .ok none :=
    fun _ => rfl
  have hall : (db.users.all fun u => !u.isAdmin) = true := by
    rw [List.all_eq_true]
    intro u hu
    have hna := List.filter_eq_nil_iff.mp hnoadmin u hu
    simpa using hna
  have hcreate : db.create_user email (phcEncode salt password) true =
      .ok (db.nextUserId,
        { db with
          users := db.users ++
            [({ id := db.nextUserId, email := email,
                passwordEncrypted := phcEncode salt password,
                isAdmin := true, isOwner := true,
                active := true } : UserRecord)],
          nextUserId := db.nextUserId + 1 }) := by
    simp [Db.create_user, hcont _, hall]
  have hfind1 : db.users.find? (fun u => u.id == db.nextUserId) = none := by
    rw [List.find?_eq_none]
    intro u hu
    simpa using hid u hu
  have hreg : ∀ code, register db email password code salt fresh now =
      (.ok { accessToken := "jwt." ++ email ++ "." ++ "admin",
             refreshToken := fresh },
       { db with
          users := db.users ++
            [({ id := db.nextUserId, email := email,
                passwordEncrypted := phcEncode salt password,
                isAdmin := true, isOwner := true,
                active := true } : UserRecord)],
          nextUserId := db.nextUserId + 1,
          refreshTokens := db.refreshTokens ++
            [({ token := fresh, userId := db.nextUserId,
                expiresAt := now + refreshTokenLifetime } :
                RefreshTokenRec)] }) := by
    intro code
    simp [register, hinit, hcheck, Db.get_user_by_email, hcont _, hemail,
      password_hash, hcreate, Db.get_user, List.find?_append, hfind1,
      Db.create_refresh_token, generate_jwt]
  refine ⟨_, _, hreg invitationCode, (hreg invitationCode).trans
    (hreg none).symm, rfl, _, rfl, rfl, rfl, rfl, rfl⟩

/-- C2 (witness): the first registration on the empty store, with an
invitation code supplied, succeeds and creates the admin owner account. -/
theorem register_first_admin_witness :
    ∃ resp db1,
      register dbEmpty "a@x.com" "pw" (some "code") "c2FsdA" "tok" 0 =
        (.ok resp, db1) ∧
      register dbEmpty "a@x.com" "pw" (some "code") "c2FsdA" "tok" 0 =
        register dbEmpty "a@x.com" "pw" none "c2FsdA" "tok" 0 ∧
      resp.refreshToken = "tok" ∧
      ∃ newUser,
        db1.users = dbEmpty.users ++ [newUser] ∧ newUser.email = "a@x.com" ∧
        newUser.isAdmin = true ∧ newUser.isOwner = true ∧
        db1.invitations = dbEmpty.invitations := by
  exact register_first_admin dbEmpty "a@x.com" "pw" (some "code") "c2FsdA"
    "tok" 0 rfl rfl rfl (by intro u hu; simp [dbEmpty] at hu)

/-! ## C4 -/

/-- C4: for a decoded certificate whose timestamps convert, the derived
status is expired exactly when now is past the expiry, regardless of seats;
otherwise seats-exceeded exactly when the used seat count strictly exceeds
the granted count; otherwise ok.  `update_license` persists the new
certificate exactly when the status computed over the force-refreshed seat
count is ok, and rejects expired or seats-exceeded certificates without
touching the stored certificate. -/
theorem license_status_and_update (raw : LicenseJWTPayload) (seatsUsed : Nat)
    (now : Int) (st : LicenseSvcState)
    (decode : String → Option LicenseJWTPayload) (text : String)
    (hiat : chronoMinTimestamp ≤ raw.iat ∧ raw.iat ≤ chronoMaxTimestamp)
    (hexp : chronoMinTimestamp ≤ raw.exp ∧ raw.exp ≤ chronoMaxTimestamp)
    (hfc : st.db.faults.contains "count_active_users" = false)
    (hfu : st.db.faults.contains "update_enterprise_license" = false)
    (hdec : decode text = some raw)
    (hiss : raw.iss = "tabbyml.com") :
    (license_info_from_raw raw seatsUsed now = .ok
      { type := raw.typ,
        status := if raw.exp < now then .expired
                  else if seatsUsed > raw.num then .seatsExceeded
                  else .ok,
        seats := (raw.num : Int), seatsUsed := (seatsUsed : Int),
        issuedAt := raw.iat, expiresAt := raw.exp }) ∧
    (¬ raw.exp < now →
      (st.db.users.filter fun u => u.active).length ≤ raw.num →
      update_license st decode text now =
        (.ok (), { db := { st.db with enterpriseLicense := some text },
                   seats :=
                    (now, (st.db.users.filter fun u => u.active).length) })) ∧
    (raw.exp < now →
      update_license st decode text now =
        (.error "License is expired",
         { st with seats :=
            (now, (st.db.users.filter fun u => u.active).length) })) ∧
    (¬ raw.exp < now →
      (st.db.users.filter fun u => u.active).length > raw.num →
      update_license st decode text now =
        (.error "License does not contain sufficient number of seats",
         { st with seats :=
            (now, (st.db.users.filter fun u => u.active).length) })) := by
  have hfc2 : "count_active_users" ∉ st.db.faults := by simpa using hfc
  have hfu2 : "update_enterprise_license" ∉ st.db.faults := by simpa using hfu
  have hts1 : jwt_timestamp_to_utc raw.iat = .ok raw.iat := by
    simp [jwt_timestamp_to_utc, hiat.1, hiat.2]
  have hts2 : jwt_timestamp_to_utc raw.exp = .ok raw.exp := by
    simp [jwt_timestamp_to_utc, hexp.1, hexp.2]
  have hinfo : ∀ s : Nat, license_info_from_raw raw s now = .ok
      { type := raw.typ,
        status := if raw.exp < now then .expired
                  else if s > raw.num then .seatsExceeded
                  else .ok,
        seats := (raw.num : Int), seatsUsed := (s : Int),
        issuedAt := raw.iat, expiresAt := raw.exp } := by
    intro s
    simp [license_info_from_raw, hts1, hts2]
  have hval : validate_license decode text = .ok raw := by
    simp [validate_license, hdec, hiss]
  have hseats : read_used_seats st true now =
      (.ok (st.db.users.filter fun u => u.active).length,
       { st with seats :=
          (now, (st.db.users.filter fun u => u.active).length) }) := by
    simp [read_used_seats, Db.count_active_users, hfc2]
  refine ⟨hinfo seatsUsed, fun h1 h2 => ?_, fun h1 => ?_, fun h1 h2 => ?_⟩
  · have hnot : ¬ (st.db.users.filter fun u => u.active).length > raw.num :=
      not_lt.mpr h2
    simp [update_license, hval, hseats,
      hinfo (st.db.users.filter fun u => u.active).length, h1, hnot,
      Db.update_enterprise_license, hfu2]
  · simp [update_license, hval, hseats,
      hinfo (st.db.users.filter fun u => u.active).length, h1]
  · simp [update_license, hval, hseats,
      hinfo (st.db.users.filter fun u => u.active).length, h1, h2]

/-- C4 (witness): a certificate granting one seat, a store with one active
account, and an update at time 5: the status is ok and the certificate is
persisted, with the seat cache force-refreshed. -/
theorem license_status_and_update_witness :
    license_info_from_raw rawLicense 0 5 = .ok
      { type := .team, status := .ok, seats := 1, seatsUsed := 0,
        issuedAt := 0, expiresAt := 100 } ∧
    update_license stLicense decodeLicense "LIC" 5 =
      (.ok (), { db := { dbAlice with enterpriseLicense := some "LIC" },
                 seats := (5, 1) }) := by
  have h := license_status_and_update rawLicense 0 5 stLicense decodeLicense
    "LIC" (by decide) (by decide) rfl rfl rfl rfl
  constructor
  · have h1 := h.1
    simpa [rawLicense] using h1
  · have h2 := h.2.1 (by decide) (by decide)
    simpa [stLicense] using h2

end TabbyAuth
